import Mathlib

/-!
Shallow embedding of the credential-lifecycle core of the `auth` backend:
the JWT authentication service (`app/services/implementations/jwt_auth_service.py`),
the token repository (`app/repositories/token_repository.py`), the biometric
service (`app/services/implementations/biometric_service.py`) and the social
authentication service (`app/services/implementations/social_auth_service.py`),
over the SQLAlchemy models `User`, `RefreshToken`, `Device`
(`app/models/user.py`, `app/models/refresh_token.py`, `app/models/device.py`).

The database session is modelled as an explicit `Store` value threaded through
each operation.  Timestamps (`datetime.utcnow()`) are natural numbers; each
operation takes the current time `now` as a parameter.  Cryptographic and
encoding primitives that live outside the repository (`hashlib.sha256`,
`jwt.encode`, `passlib`'s bcrypt verify, `base64.b64decode`, `bytes.hex`) are
supplied as a `Ctx` record of functions; nothing proved below depends on any
property of those functions beyond their being functions of their input.
Randomness (`secrets.token_urlsafe(32)`) is modelled by passing the freshly
drawn string as an explicit argument.
-/

namespace AuthCore

/-- `UserRole` from `app/models/user.py`. -/
inductive UserRole where
  | attendee
  | manager
  | admin
deriving Repr, DecidableEq

/-- The `users` table row, `app/models/user.py` (fields relevant to the
claims; `password_hash`, social ids and the biometric public key are nullable
columns, hence `Option`). -/
structure User where
  id : Nat
  email : String
  username : Option String
  full_name : Option String
  password_hash : Option String
  is_active : Bool
  is_verified : Bool
  role : UserRole
  google_id : Option String
  apple_id : Option String
  biometric_enabled : Bool
  biometric_public_key : Option String
  avatar_url : Option String
  last_login : Option Nat
deriving Repr, DecidableEq

/-- The `refresh_tokens` table row, `app/models/refresh_token.py`.
`token_hash` carries a `unique=True` constraint in the model. -/
structure RefreshToken where
  user_id : Nat
  token_hash : String
  device_id : String
  device_info : Option String
  is_active : Bool
  expires_at : Nat
  last_used : Option Nat
  created_at : Nat
deriving Repr, DecidableEq

/-- The `devices` table row, `app/models/device.py` (fields used by the
biometric service). -/
structure Device where
  user_id : Nat
  device_id : String
  supports_biometric : Bool
  biometric_type : Option String
  is_active : Bool
  last_active : Option Nat
deriving Repr, DecidableEq

/-- The database session state: the tables touched by the services.  `prefs`
records the user ids owning a `UserPreferences` row (only existence matters
to the claims); `nextUserId` models primary-key assignment on insert. -/
structure Store where
  users : List User
  tokens : List RefreshToken
  devices : List Device
  prefs : List Nat
  nextUserId : Nat
deriving Repr, DecidableEq

/-- Payload of the access token minted by `JWTAuthService`
(`{"sub": …, "email": …, "role": …, "exp": …, "type": "access"}`). -/
structure AccessTokenData where
  sub : Nat
  email : String
  role : UserRole
  exp : Nat
  token_type : String
deriving Repr, DecidableEq

/-- `TokenResponse` schema, `app/schemas/token.py`. -/
structure TokenResponse where
  access_token : String
  refresh_token : String
  token_type : String
  expires_in : Nat
  user_id : Nat
  role : UserRole
deriving Repr, DecidableEq

/-- `RefreshTokenRequest` schema, `app/schemas/token.py`. -/
structure RefreshTokenRequest where
  refresh_token : String
  device_id : String
deriving Repr, DecidableEq

/-- `BiometricAuthRequest` schema, `app/schemas/token.py`. -/
structure BiometricAuthRequest where
  user_id : Nat
  device_id : String
  biometric_signature : String
  challenge : String
deriving Repr, DecidableEq

/-- The dictionary returned by the provider verifiers in
`social_auth_service.py` (`id`, `email`, `name`, `picture`,
`verified_email`). -/
structure SocialUserInfo where
  pid : String
  email : String
  name : Option String
  picture : Option String
  verified_email : Bool
deriving Repr, DecidableEq

/-- Social provider (the service dispatches on `"google"` / `"apple"`). -/
inductive Provider where
  | google
  | apple
deriving Repr, DecidableEq

/-- External primitives used by the services, supplied as functions:
* `sha256hex s` — `hashlib.sha256(s.encode()).hexdigest()`;
* `sha256dig s` — `hashlib.sha256(s.encode()).digest()` (bytes as a string);
* `jwtEncode d` — `jwt.encode(d, settings.SECRET_KEY, settings.ALGORITHM)`;
* `pwVerify p h` — `pwd_context.verify(p, h)` for a non-null stored hash;
* `b64decode s` — `base64.b64decode(s)`, `none` when it raises;
* `hexBytes b` — `bytes.hex()` of decoded bytes. -/
structure Ctx where
  sha256hex : String → String
  sha256dig : String → String
  jwtEncode : AccessTokenData → String
  pwVerify : String → String → Bool
  b64decode : String → Option String
  hexBytes : String → String

/-- `settings.ACCESS_TOKEN_EXPIRE_MINUTES` default, `app/core/config.py`. -/
def accessTokenExpireMinutes : Nat := 30

/-- Seconds in a minute / day, for `timedelta` arithmetic. -/
def secondsPerMinute : Nat := 60

def secondsPerDay : Nat := 86400

/-- Replace the first element satisfying `p` (the row the ORM object found by
a `select … limit`-style lookup denotes); leaves the list unchanged when no
element matches. -/
def updateFirst (p : α → Bool) (f : α → α) : List α → List α
  | [] => []
  | x :: xs => if p x then f x :: xs else x :: updateFirst p f xs

/-- SQL `UPDATE … WHERE p` semantics: apply `f` to every matching row. -/
def updateWhere (p : α → Bool) (f : α → α) (l : List α) : List α :=
  l.map fun x => if p x then f x else x

/-- `core/security.py: verify_password`.  The call site may pass a `None`
hash (nullable `users.password_hash`); passlib then raises, modelled as
`Except.error`. -/
def verify_password (ctx : Ctx) (plain : String) (hashed : Option String) :
    Except Unit Bool :=
  match hashed with
  | none => .error ()
  | some h => .ok (ctx.pwVerify plain h)

/-- `JWTAuthService.authenticate_user`: look the user up by email; if found
and the password verifies, stamp `last_login` and return the user; any
exception (in particular passlib raising on a null stored hash) is caught by
the surrounding `try`/`except` and mapped to `None`. -/
def authenticate_user (ctx : Ctx) (s : Store) (email password : String)
    (now : Nat) : Option User × Store :=
  match s.users.find? (fun u => u.email == email) with
  | none => (none, s)
  | some u =>
    match verify_password ctx password u.password_hash with
    | .error _ => (none, s)
    | .ok false => (none, s)
    | .ok true =>
      let u' := { u with last_login := some now }
      (some u',
       { s with users := updateFirst (fun v => v.email == email)
                  (fun v => { v with last_login := some now }) s.users })

/-- Access-token payload minted by `create_tokens` / `refresh_access_token`. -/
def mintAccessData (u : User) (now : Nat) : AccessTokenData :=
  { sub := u.id
    email := u.email
    role := u.role
    exp := now + accessTokenExpireMinutes * secondsPerMinute
    token_type := "access" }

/-- Insert a `RefreshToken` row.  The model declares
`token_hash = Column(String(256), nullable=False, unique=True)`, so a commit
inserting a duplicate hash raises an integrity error, modelled as `none`. -/
def insertRefreshToken (s : Store) (t : RefreshToken) : Option Store :=
  if s.tokens.any (fun r => r.token_hash == t.token_hash) then none
  else some { s with tokens := s.tokens ++ [t] }

/-- The `RefreshToken` row `create_tokens` persists: only the SHA-256 hash
of the fresh plaintext appears; `is_active` defaults true, `last_used` null,
expiry 30 days under `remember_me` and 7 otherwise. -/
def mkRefreshRow (ctx : Ctx) (u : User) (device_id : String)
    (remember_me : Bool) (fresh : String) (now : Nat) : RefreshToken :=
  { user_id := u.id
    token_hash := ctx.sha256hex fresh
    device_id := device_id
    device_info := none
    is_active := true
    expires_at := now + (if remember_me then 30 else 7) * secondsPerDay
    last_used := none
    created_at := now }

/-- `JWTAuthService.create_tokens`: mint the access token, draw a fresh
random refresh token (`fresh`, modelling `secrets.token_urlsafe(32)`),
persist only its SHA-256 hash in a new `RefreshToken` row, and return the
plaintext to the caller. -/
def create_tokens (ctx : Ctx) (s : Store) (u : User) (device_id : String)
    (remember_me : Bool) (fresh : String) (now : Nat) :
    Option (TokenResponse × Store) :=
  let expiresIn := accessTokenExpireMinutes * secondsPerMinute
  let access := ctx.jwtEncode (mintAccessData u now)
  let row := mkRefreshRow ctx u device_id remember_me fresh now
  match insertRefreshToken s row with
  | none => none
  | some s' =>
    some ({ access_token := access
            refresh_token := fresh
            token_type := "bearer"
            expires_in := expiresIn
            user_id := u.id
            role := u.role }, s')

/-- The row filter of `refresh_access_token`'s token query:
`token_hash == h ∧ device_id == d ∧ is_active == True ∧ expires_at > now`. -/
def refreshMatch (h d : String) (now : Nat) (t : RefreshToken) : Bool :=
  t.token_hash == h && t.device_id == d && t.is_active && decide (now < t.expires_at)

/-- `JWTAuthService.refresh_access_token`: hash the supplied plaintext, find
a row matching hash + device + active + unexpired, load the owning user and
require it active, stamp the row's `last_used`, mint a new access token and
return it paired with the same refresh-token string the caller supplied. -/
def refresh_access_token (ctx : Ctx) (s : Store) (req : RefreshTokenRequest)
    (now : Nat) : Option TokenResponse × Store :=
  let h := ctx.sha256hex req.refresh_token
  match s.tokens.find? (refreshMatch h req.device_id now) with
  | none => (none, s)
  | some t =>
    match s.users.find? (fun u => u.id == t.user_id) with
    | none => (none, s)
    | some u =>
      if !u.is_active then (none, s)
      else
        let s' := { s with
          tokens := updateFirst (refreshMatch h req.device_id now)
            (fun r => { r with last_used := some now }) s.tokens }
        (some { access_token := ctx.jwtEncode (mintAccessData u now)
                refresh_token := req.refresh_token
                token_type := "bearer"
                expires_in := accessTokenExpireMinutes * secondsPerMinute
                user_id := u.id
                role := u.role }, s')

/-- `JWTAuthService.revoke_refresh_token`: hash, select the row by hash only
(active or not), set `is_active = False` and return `True` when a row with
that hash exists; return `False` otherwise. -/
def revoke_refresh_token (ctx : Ctx) (s : Store) (refresh_token : String) :
    Bool × Store :=
  let h := ctx.sha256hex refresh_token
  match s.tokens.find? (fun t => t.token_hash == h) with
  | none => (false, s)
  | some _ =>
    let ts := updateFirst (fun t => t.token_hash == h)
      (fun t => { t with is_active := false }) s.tokens
    (true, { s with tokens := ts })

/-- `TokenRepository.get_by_token_hash`: first row with the given hash that
is active and unexpired. -/
def get_by_token_hash (s : Store) (token_hash : String) (now : Nat) :
    Option RefreshToken :=
  s.tokens.find? fun t =>
    t.token_hash == token_hash && t.is_active && decide (now < t.expires_at)

/-- `TokenRepository.revoke_token`: `UPDATE refresh_tokens SET is_active =
false WHERE token_hash = h`; returns `rowcount > 0`, where `rowcount` counts
the rows the `WHERE` clause matched (whether or not they were active). -/
def revoke_token (s : Store) (token_hash : String) : Bool × Store :=
  let n := s.tokens.countP fun t => t.token_hash == token_hash
  let ts := updateWhere (fun t => t.token_hash == token_hash)
    (fun t => { t with is_active := false }) s.tokens
  (decide (0 < n), { s with tokens := ts })

/-- The `WHERE` clause built by `TokenRepository.revoke_user_tokens`:
`user_id = u`, and `device_id != d` only when `exclude_device` is truthy in
Python (`if exclude_device:` — `None` and the empty string skip the filter). -/
def revokeUserMatch (user_id : Nat) (exclude_device : Option String)
    (t : RefreshToken) : Bool :=
  t.user_id == user_id &&
    (match exclude_device with
     | none => true
     | some d => if d == "" then true else t.device_id != d)

/-- `TokenRepository.revoke_user_tokens`: bulk `UPDATE … SET is_active =
false` over the user's rows (optionally sparing one device); returns the
statement's `rowcount`, i.e. the number of rows matched. -/
def revoke_user_tokens (s : Store) (user_id : Nat)
    (exclude_device : Option String) : Nat × Store :=
  let p := revokeUserMatch user_id exclude_device
  let ts := updateWhere p (fun t => { t with is_active := false }) s.tokens
  (s.tokens.countP p, { s with tokens := ts })

/-- `TokenRepository.cleanup_expired_tokens`: `DELETE FROM refresh_tokens
WHERE expires_at < now`; returns the number of deleted rows. -/
def cleanup_expired_tokens (s : Store) (now : Nat) : Nat × Store :=
  (s.tokens.countP (fun t => decide (t.expires_at < now)),
   { s with tokens := s.tokens.filter fun t => !decide (t.expires_at < now) })

/-- `BiometricService._verify_biometric_signature`: base64-decode the
signature and the stored public key, then compare the signature bytes for
equality with `sha256(f"{challenge}{key_bytes.hex()}").digest()`.  A null
stored key or a decoding failure raises inside the `try` and yields
`False`. -/
def verify_biometric_signature (ctx : Ctx) (public_key : Option String)
    (signature challenge : String) : Bool :=
  match public_key with
  | none => false
  | some pk =>
    match ctx.b64decode signature, ctx.b64decode pk with
    | some sigBytes, some keyBytes =>
      sigBytes == ctx.sha256dig (challenge ++ ctx.hexBytes keyBytes)
    | _, _ => false

/-- `BiometricService.generate_challenge`: require an active
biometric-capable device for the user, then return a fresh random string
(`secrets.token_urlsafe(32)`, modelled by the `fresh` argument).  The store
is returned unchanged: the service never persists the challenge. -/
def generate_challenge (s : Store) (user_id : Nat) (device_id : String)
    (fresh : String) : Option String × Store :=
  match s.devices.find? (fun d =>
      d.user_id == user_id && d.device_id == device_id &&
      d.supports_biometric && d.is_active) with
  | none => (none, s)
  | some _ => (some fresh, s)

/-- `BiometricService.authenticate_biometric`: require an active
biometric-enabled user and an active biometric-capable device, check the
signature against the stored public key, then issue tokens via
`JWTAuthService.create_tokens` and stamp `user.last_login` and
`device.last_active`.  Any exception (e.g. the duplicate-hash integrity
error on commit) rolls the transaction back and yields `None`. -/
def authenticate_biometric (ctx : Ctx) (s : Store)
    (req : BiometricAuthRequest) (fresh : String) (now : Nat) :
    Option TokenResponse × Store :=
  match s.users.find? (fun u =>
      u.id == req.user_id && u.biometric_enabled && u.is_active) with
  | none => (none, s)
  | some u =>
    match s.devices.find? (fun d =>
        d.user_id == req.user_id && d.device_id == req.device_id &&
        d.supports_biometric && d.is_active) with
    | none => (none, s)
    | some _ =>
      if !verify_biometric_signature ctx u.biometric_public_key
          req.biometric_signature req.challenge then (none, s)
      else
        match create_tokens ctx s u req.device_id false fresh now with
        | none => (none, s)
        | some (resp, s1) =>
          let s2 := { s1 with
            users := updateWhere (fun v => v.id == u.id)
              (fun v => { v with last_login := some now }) s1.users
            devices := updateWhere (fun d =>
                d.user_id == u.id && d.device_id == req.device_id)
              (fun d => { d with last_active := some now }) s1.devices }
          (some resp, s2)

/-- The provider-id column the social service reads and writes
(`getattr(User, f"{provider}_id")`). -/
def providerId (u : User) : Provider → Option String
  | .google => u.google_id
  | .apple => u.apple_id

/-- `setattr(user, f"{provider}_id", info["id"])`. -/
def setProviderId (u : User) (provider : Provider) (pid : String) : User :=
  match provider with
  | .google => { u with google_id := some pid }
  | .apple => { u with apple_id := some pid }

/-- `UserServiceImpl.create_default_preferences`: insert a default
`UserPreferences` row for the user unless one already exists. -/
def create_default_preferences (s : Store) (user_id : Nat) : Store :=
  if s.prefs.any (fun p => p == user_id) then s
  else { s with prefs := s.prefs ++ [user_id] }

/-- The linking mutation `_find_or_create_social_user` applies to an
existing user found by email: attach the provider id, and set
`is_verified` when it was unset and the provider asserts a verified
email. -/
def linkSocial (provider : Provider) (info : SocialUserInfo) (u : User) : User :=
  let u' := setProviderId u provider info.pid
  if !u.is_verified && info.verified_email then { u' with is_verified := true }
  else u'

/-- The new `User` row built by `_find_or_create_social_user` case (c):
`User(email=…, full_name=info.get("name", ""), is_verified=
info.get("verified_email", False), avatar_url=info.get("picture"),
role=UserRole.ATTENDEE)` with the provider id attached; nullable columns
absent from the constructor stay null, and `is_active` takes its column
default `True`. -/
def newSocialUser (s : Store) (info : SocialUserInfo) (provider : Provider) :
    User :=
  setProviderId
    { id := s.nextUserId
      email := info.email
      username := none
      full_name := some (info.name.getD "")
      password_hash := none
      is_active := true
      is_verified := info.verified_email
      role := .attendee
      google_id := none
      apple_id := none
      biometric_enabled := false
      biometric_public_key := none
      avatar_url := info.picture
      last_login := none } provider info.pid

/-- `SocialAuthService._find_or_create_social_user`: (a) a user holding the
asserted provider id is returned unchanged; (b) otherwise a user holding the
asserted email is linked in place (provider id attached, verified flag
possibly set); (c) otherwise a new user is inserted and a default
preferences row created. -/
def find_or_create_social_user (s : Store) (info : SocialUserInfo)
    (provider : Provider) : Option User × Store :=
  match s.users.find? (fun u => providerId u provider == some info.pid) with
  | some u => (some u, s)
  | none =>
    match s.users.find? (fun u => u.email == info.email) with
    | some u =>
      let u' := linkSocial provider info u
      let us := updateFirst (fun v => v.email == info.email)
        (linkSocial provider info) s.users
      (some u', { s with users := us })
    | none =>
      let nu := newSocialUser s info provider
      let s' := { s with users := s.users ++ [nu], nextUserId := s.nextUserId + 1 }
      (some nu, create_default_preferences s' nu.id)

/-- Well-formedness enforced by the schema's unique constraints: stored
refresh-token hashes are pairwise distinct (`refresh_tokens.token_hash`,
`unique=True`). -/
def Store.tokensWF (s : Store) : Prop :=
  (s.tokens.map fun t => t.token_hash).Nodup

/-- Primary-key uniqueness of `users.id`. -/
def Store.usersWF (s : Store) : Prop :=
  (s.users.map fun u => u.id).Nodup

/-- Unique constraint on `users.email`. -/
def Store.emailsWF (s : Store) : Prop :=
  (s.users.map fun u => u.email).Nodup

instance (s : Store) : Decidable s.tokensWF := by
  unfold Store.tokensWF; infer_instance

instance (s : Store) : Decidable s.usersWF := by
  unfold Store.usersWF; infer_instance

instance (s : Store) : Decidable s.emailsWF := by
  unfold Store.emailsWF; infer_instance

/-- Unique constraint on the provider-id columns (`users.google_id`,
`users.apple_id`, each `unique=True`): two stored users cannot carry the
same non-null provider id. -/
def Store.providerWF (s : Store) (prov : Provider) : Prop :=
  ∀ u1 ∈ s.users, ∀ u2 ∈ s.users,
    providerId u1 prov = providerId u2 prov → providerId u1 prov ≠ none → u1 = u2

instance (s : Store) (prov : Provider) : Decidable (s.providerWF prov) := by
  unfold Store.providerWF; infer_instance

/-- One committed service operation on the store: the transition relation of
the credential core.  Non-deterministic inputs (current time, random token
material, request payloads) are existentially chosen by each step. -/
inductive Step (ctx : Ctx) : Store → Store → Prop where
  | auth (s : Store) (email password : String) (now : Nat) :
      Step ctx s (authenticate_user ctx s email password now).2
  | mint (s : Store) (u : User) (device_id : String) (remember_me : Bool)
      (fresh : String) (now : Nat) (resp : TokenResponse) (s' : Store)
      (h : create_tokens ctx s u device_id remember_me fresh now = some (resp, s')) :
      Step ctx s s'
  | refresh (s : Store) (req : RefreshTokenRequest) (now : Nat) :
      Step ctx s (refresh_access_token ctx s req now).2
  | revokeSvc (s : Store) (tok : String) :
      Step ctx s (revoke_refresh_token ctx s tok).2
  | revokeRepo (s : Store) (h : String) :
      Step ctx s (revoke_token s h).2
  | revokeUser (s : Store) (uid : Nat) (excl : Option String) :
      Step ctx s (revoke_user_tokens s uid excl).2
  | cleanup (s : Store) (now : Nat) :
      Step ctx s (cleanup_expired_tokens s now).2
  | challenge (s : Store) (uid : Nat) (did fresh : String) :
      Step ctx s (generate_challenge s uid did fresh).2
  | biometric (s : Store) (req : BiometricAuthRequest) (fresh : String) (now : Nat) :
      Step ctx s (authenticate_biometric ctx s req fresh now).2
  | social (s : Store) (info : SocialUserInfo) (provider : Provider) :
      Step ctx s (find_or_create_social_user s info provider).2

/-- The empty store a fresh deployment starts from. -/
def Store.empty : Store :=
  { users := [], tokens := [], devices := [], prefs := [], nextUserId := 0 }

/-- States reachable from the empty store by committed operations. -/
def Reachable (ctx : Ctx) (s : Store) : Prop :=
  Relation.ReflTransGen (Step ctx) Store.empty s

/-! ### Concrete instantiations used to evaluate the definitions

None of the general theorems depends on properties of the external
primitives, so any concrete choice exercises the service logic; these simple
executable stand-ins make the evaluations decidable. -/

def demoCtx : Ctx :=
  { sha256hex := fun s => "hex|" ++ s
    sha256dig := fun s => "dig|" ++ s
    jwtEncode := fun d => "jwt|" ++ d.email
    pwVerify := fun p h => h == "bcrypt|" ++ p
    b64decode := fun s => some s
    hexBytes := fun b => b }

def demoUser : User :=
  { id := 1
    email := "a@example.com"
    username := none
    full_name := none
    password_hash := some "bcrypt|pw"
    is_active := true
    is_verified := false
    role := .attendee
    google_id := none
    apple_id := none
    biometric_enabled := false
    biometric_public_key := none
    avatar_url := none
    last_login := none }

/-- A deactivated account that still has a valid password hash. -/
def inactiveUser : User :=
  { demoUser with id := 2, email := "b@example.com", is_active := false }

/-- An account configured only for social/biometric login (null password). -/
def socialOnlyUser : User :=
  { demoUser with id := 3, email := "c@example.com", password_hash := none }

def c2Store : Store :=
  { users := [inactiveUser], tokens := [], devices := [], prefs := [], nextUserId := 10 }

def c10Store : Store :=
  { users := [socialOnlyUser], tokens := [], devices := [], prefs := [], nextUserId := 10 }

def c6Token : RefreshToken :=
  { user_id := 1, token_hash := "hex|tok", device_id := "d1", device_info := none
    is_active := true, expires_at := 1000, last_used := none, created_at := 0 }

def c6Store : Store :=
  { users := [demoUser], tokens := [c6Token], devices := [], prefs := [], nextUserId := 10 }

/-- A row that is already inactive: the bulk revoke's `WHERE` clause still
matches it. -/
def c7Token : RefreshToken :=
  { user_id := 1, token_hash := "h7", device_id := "e", device_info := none
    is_active := false, expires_at := 100, last_used := none, created_at := 0 }

def c7Store : Store :=
  { users := [], tokens := [c7Token], devices := [], prefs := [], nextUserId := 0 }

/-- An expired but still-active row. -/
def c9Token : RefreshToken :=
  { user_id := 1, token_hash := "h9", device_id := "d1", device_info := none
    is_active := true, expires_at := 10, last_used := none, created_at := 0 }

def c9Store : Store :=
  { users := [demoUser], tokens := [c9Token], devices := [], prefs := [], nextUserId := 10 }

def c5Token : RefreshToken :=
  { user_id := 1, token_hash := "hex|tok", device_id := "d1", device_info := none
    is_active := true, expires_at := 1000, last_used := none, created_at := 0 }

def c5Store : Store :=
  { users := [demoUser], tokens := [c5Token], devices := [], prefs := [], nextUserId := 10 }

def bioUser : User :=
  { demoUser with biometric_enabled := true, biometric_public_key := some "PK" }

def bioDevice : Device :=
  { user_id := 1, device_id := "d1", supports_biometric := true
    biometric_type := some "face_id", is_active := true, last_active := none }

def c4Store : Store :=
  { users := [bioUser], tokens := [], devices := [bioDevice], prefs := [], nextUserId := 10 }

/-- A verification request whose signature is computed purely from the
challenge and the stored public key: `sha256("CH" + hex("PK")).digest()`
under the demo primitives. -/
def c4Req : BiometricAuthRequest :=
  { user_id := 1, device_id := "d1", biometric_signature := "dig|CHPK", challenge := "CH" }

def c1Token : RefreshToken :=
  { user_id := 1, token_hash := "hex|rt", device_id := "d1", device_info := none
    is_active := true, expires_at := 1000, last_used := none, created_at := 0 }

def c1Store : Store :=
  { users := [demoUser], tokens := [c1Token], devices := [], prefs := [], nextUserId := 10 }

def c1Req : RefreshTokenRequest :=
  { refresh_token := "rt", device_id := "d1" }

/-- An existing password-less account a social assertion will link onto. -/
def c8User : User :=
  { demoUser with id := 5, email := "s@example.com" }

def c8Store : Store :=
  { users := [c8User], tokens := [], devices := [], prefs := [], nextUserId := 6 }

def c8Info : SocialUserInfo :=
  { pid := "g1", email := "s@example.com", name := some "S", picture := none
    verified_email := true }

/-! ### Helper lemmas about `find?`, `updateFirst` and `updateWhere` -/

theorem find?_eq_some_of_unique {α : Type _} {l : List α} {p : α → Bool} {x : α}
    (hx : x ∈ l) (hpx : p x = true) (huniq : ∀ y ∈ l, p y = true → y = x) :
    l.find? p = some x := by
  induction l with
  | nil => exact absurd hx (List.not_mem_nil x)
  | cons a as ih =>
    by_cases hpa : p a = true
    · have ha : a = x := huniq a (List.mem_cons_self a as) hpa
      subst ha
      exact List.find?_cons_of_pos as hpa
    · rw [List.find?_cons_of_neg as hpa]
      have hx' : x ∈ as := by
        rcases List.mem_cons.mp hx with h | h
        · exact absurd (h ▸ hpx) hpa
        · exact h
      exact ih hx' fun y hy hpy => huniq y (List.mem_cons_of_mem _ hy) hpy

theorem updateFirst_of_find?_eq_none {α : Type _} {l : List α} {p : α → Bool}
    {f : α → α} (h : l.find? p = none) : updateFirst p f l = l := by
  induction l with
  | nil => rfl
  | cons a as ih =>
    rw [List.find?_eq_none] at h
    have hpa : ¬p a = true := h a (List.mem_cons_self a as)
    have has : as.find? p = none :=
      List.find?_eq_none.mpr fun x hx => h x (List.mem_cons_of_mem _ hx)
    simp only [updateFirst, if_neg hpa]
    rw [ih has]

theorem length_updateFirst {α : Type _} (p : α → Bool) (f : α → α)
    (l : List α) : (updateFirst p f l).length = l.length := by
  induction l with
  | nil => rfl
  | cons a as ih =>
    by_cases hpa : p a = true <;> simp [updateFirst, hpa, ih]

/-- Where `find?` locates the first match, `updateFirst` rewrites exactly
that position and nothing else. -/
theorem updateFirst_spec {α : Type _} {l : List α} {p : α → Bool} {f : α → α}
    {x : α} (h : l.find? p = some x) :
    ∃ i : Nat, l[i]? = some x ∧ (updateFirst p f l)[i]? = some (f x) ∧
      ∀ j : Nat, j ≠ i → (updateFirst p f l)[j]? = l[j]? := by
  induction l with
  | nil => simp at h
  | cons a as ih =>
    by_cases hpa : p a = true
    · rw [List.find?_cons_of_pos as hpa] at h
      obtain rfl : a = x := Option.some.inj h
      refine ⟨0, by simp, by simp [updateFirst, hpa], ?_⟩
      intro j hj
      match j with
      | 0 => exact absurd rfl hj
      | n + 1 => simp [updateFirst, hpa]
    · rw [List.find?_cons_of_neg as hpa] at h
      obtain ⟨i, h1, h2, h3⟩ := ih h
      refine ⟨i + 1, by simpa [updateFirst, hpa], by simp [updateFirst, hpa, h2], ?_⟩
      intro j hj
      match j with
      | 0 => simp [updateFirst, hpa]
      | n + 1 =>
        have : n ≠ i := fun hni => hj (by rw [hni])
        simp only [updateFirst, if_neg hpa]
        simpa using h3 n this

/-- `updateFirst` leaves every projection unchanged that the rewriting
function preserves. -/
theorem map_updateFirst {α β : Type _} {p : α → Bool} {f : α → α}
    {g : α → β} (hg : ∀ x, g (f x) = g x) (l : List α) :
    (updateFirst p f l).map g = l.map g := by
  induction l with
  | nil => rfl
  | cons a as ih =>
    by_cases hpa : p a = true <;> simp [updateFirst, hpa, ih, hg]

/-- When the rewriting function does not change the predicate, `find?` after
`updateFirst` returns the rewritten first match. -/
theorem find?_updateFirst {α : Type _} {p : α → Bool} {f : α → α}
    (hp : ∀ x, p (f x) = p x) (l : List α) :
    (updateFirst p f l).find? p = (l.find? p).map f := by
  induction l with
  | nil => rfl
  | cons a as ih =>
    by_cases hpa : p a = true
    · have : p (f a) = true := (hp a).trans hpa
      simp [updateFirst, hpa, this]
    · have : ¬p a = true := hpa
      simp [updateFirst, hpa, ih]

/-- Rewriting the first match is a no-op when that match is a fixed point of
the rewriting function. -/
theorem updateFirst_eq_self_of_fix {α : Type _} {l : List α} {p : α → Bool}
    {f : α → α} {x : α} (h : l.find? p = some x) (hfx : f x = x) :
    updateFirst p f l = l := by
  induction l with
  | nil => rfl
  | cons a as ih =>
    by_cases hpa : p a = true
    · rw [List.find?_cons_of_pos as hpa] at h
      obtain rfl : a = x := Option.some.inj h
      simp [updateFirst, hpa, hfx]
    · rw [List.find?_cons_of_neg as hpa] at h
      simp only [updateFirst, if_neg hpa]
      rw [ih h]

theorem length_updateWhere {α : Type _} (p : α → Bool) (f : α → α)
    (l : List α) : (updateWhere p f l).length = l.length := by
  simp [updateWhere]

theorem getElem?_updateWhere {α : Type _} (p : α → Bool) (f : α → α)
    (l : List α) (i : Nat) :
    (updateWhere p f l)[i]? = l[i]?.map fun x => if p x then f x else x := by
  simp [updateWhere]

theorem map_updateWhere {α β : Type _} {p : α → Bool} {f : α → α}
    {g : α → β} (hg : ∀ x, g (f x) = g x) (l : List α) :
    (updateWhere p f l).map g = l.map g := by
  induction l with
  | nil => rfl
  | cons a as ih =>
    by_cases hpa : p a = true <;> simp [updateWhere, hpa, hg] at ih ⊢ <;> exact ih

/-! ### Projection facts about each operation, used for the store invariant -/

/-- The stored token hash of a row is untouched by the `last_used` stamp. -/
theorem tokenHash_setLastUsed (now : Nat) (t : RefreshToken) :
    ({ t with last_used := some now } : RefreshToken).token_hash = t.token_hash := rfl

/-- The stored token hash of a row is untouched by deactivation. -/
theorem tokenHash_deactivate (t : RefreshToken) :
    ({ t with is_active := false } : RefreshToken).token_hash = t.token_hash := rfl

theorem authenticate_user_snd_tokens (ctx : Ctx) (s : Store)
    (email password : String) (now : Nat) :
    ((authenticate_user ctx s email password now).2).tokens = s.tokens := by
  unfold authenticate_user
  split
  · rfl
  · split <;> rfl

/-- `create_tokens` fails (integrity error on the unique hash column) when a
row with the hash of the fresh plaintext already exists. -/
theorem create_tokens_eq_none (ctx : Ctx) (s : Store) (u : User)
    (device_id : String) (remember_me : Bool) (fresh : String) (now : Nat)
    (hdup : ∃ t ∈ s.tokens, t.token_hash = ctx.sha256hex fresh) :
    create_tokens ctx s u device_id remember_me fresh now = none := by
  obtain ⟨t, ht, hh⟩ := hdup
  have hany : s.tokens.any
      (fun r => r.token_hash == (mkRefreshRow ctx u device_id remember_me fresh now).token_hash) = true :=
    List.any_eq_true.mpr ⟨t, ht, by simp [mkRefreshRow, hh]⟩
  simp [create_tokens, insertRefreshToken, hany]

/-- Shape of a successful `create_tokens` call: the plaintext goes to the
caller, only its hash into the appended row, and nothing else changes. -/
theorem create_tokens_eq_some {ctx : Ctx} {s : Store} {u : User}
    {device_id : String} {remember_me : Bool} {fresh : String} {now : Nat}
    {resp : TokenResponse} {s' : Store}
    (h : create_tokens ctx s u device_id remember_me fresh now = some (resp, s')) :
    resp.refresh_token = fresh ∧
    resp.access_token = ctx.jwtEncode (mintAccessData u now) ∧
    resp.user_id = u.id ∧ resp.role = u.role ∧
    (∀ t ∈ s.tokens, t.token_hash ≠ ctx.sha256hex fresh) ∧
    s' = { s with tokens := s.tokens ++ [mkRefreshRow ctx u device_id remember_me fresh now] } := by
  by_cases hany : s.tokens.any
      (fun r => r.token_hash == (mkRefreshRow ctx u device_id remember_me fresh now).token_hash) = true
  · rw [create_tokens_eq_none ctx s u device_id remember_me fresh now] at h
    · exact absurd h (by simp)
    · obtain ⟨t, ht, hh⟩ := List.any_eq_true.mp hany
      exact ⟨t, ht, by simpa [mkRefreshRow] using hh⟩
  · have hins : insertRefreshToken s (mkRefreshRow ctx u device_id remember_me fresh now) =
        some { s with tokens := s.tokens ++ [mkRefreshRow ctx u device_id remember_me fresh now] } := by
      simp [insertRefreshToken, hany]
    simp only [create_tokens, hins] at h
    obtain ⟨hresp, hs⟩ := Prod.mk.injEq .. ▸ Option.some.inj h
    subst hresp hs
    refine ⟨rfl, rfl, rfl, rfl, ?_, rfl⟩
    intro t ht hcontra
    exact hany (List.any_eq_true.mpr ⟨t, ht, by simp [mkRefreshRow, hcontra]⟩)

theorem refresh_access_token_snd_hashes (ctx : Ctx) (s : Store)
    (req : RefreshTokenRequest) (now : Nat) :
    ((refresh_access_token ctx s req now).2).tokens.map (fun t => t.token_hash) =
      s.tokens.map (fun t => t.token_hash) := by
  unfold refresh_access_token
  dsimp only []
  split
  · rfl
  · split
    · rfl
    · split
      · rfl
      · refine map_updateFirst ?_ s.tokens
        intro x
        rfl

theorem revoke_refresh_token_snd_hashes (ctx : Ctx) (s : Store) (tok : String) :
    ((revoke_refresh_token ctx s tok).2).tokens.map (fun t => t.token_hash) =
      s.tokens.map (fun t => t.token_hash) := by
  unfold revoke_refresh_token
  dsimp only []
  split
  · rfl
  · refine map_updateFirst ?_ s.tokens
    intro x
    rfl

theorem revoke_token_snd_hashes (s : Store) (h : String) :
    ((revoke_token s h).2).tokens.map (fun t => t.token_hash) =
      s.tokens.map (fun t => t.token_hash) := by
  show (updateWhere (fun t => t.token_hash == h)
      (fun t => { t with is_active := false }) s.tokens).map (fun t => t.token_hash) =
    s.tokens.map (fun t => t.token_hash)
  refine map_updateWhere ?_ s.tokens
  intro x
  rfl

theorem revoke_user_tokens_snd_hashes (s : Store) (uid : Nat)
    (excl : Option String) :
    ((revoke_user_tokens s uid excl).2).tokens.map (fun t => t.token_hash) =
      s.tokens.map (fun t => t.token_hash) := by
  show (updateWhere (revokeUserMatch uid excl)
      (fun t => { t with is_active := false }) s.tokens).map (fun t => t.token_hash) =
    s.tokens.map (fun t => t.token_hash)
  refine map_updateWhere ?_ s.tokens
  intro x
  rfl

theorem generate_challenge_snd (s : Store) (uid : Nat) (did fresh : String) :
    (generate_challenge s uid did fresh).2 = s := by
  unfold generate_challenge
  split <;> rfl

theorem find_or_create_social_user_snd_tokens (s : Store)
    (info : SocialUserInfo) (provider : Provider) :
    ((find_or_create_social_user s info provider).2).tokens = s.tokens := by
  unfold find_or_create_social_user
  split
  · rfl
  · split
    · rfl
    · simp only [create_default_preferences]
      split <;> rfl

/-- A successful `create_tokens` preserves pairwise distinctness of stored
hashes: the guarded insert only goes through on a fresh hash. -/
theorem create_tokens_tokensWF {ctx : Ctx} {s : Store} {u : User}
    {device_id : String} {remember_me : Bool} {fresh : String} {now : Nat}
    {resp : TokenResponse} {s' : Store}
    (h : create_tokens ctx s u device_id remember_me fresh now = some (resp, s'))
    (hwf : s.tokensWF) : s'.tokensWF := by
  obtain ⟨-, -, -, -, hnot, hs⟩ := create_tokens_eq_some h
  subst hs
  unfold Store.tokensWF at *
  simp only [List.map_append, List.map_cons, List.map_nil]
  rw [List.nodup_append]
  refine ⟨hwf, List.nodup_singleton _, ?_⟩
  intro a ha hb
  simp only [List.mem_singleton] at hb
  obtain ⟨t, ht, rfl⟩ := List.mem_map.mp ha
  exact hnot t ht (by simpa [mkRefreshRow] using hb)

theorem authenticate_biometric_tokensWF {ctx : Ctx} {s : Store}
    {req : BiometricAuthRequest} {fresh : String} {now : Nat}
    (hwf : s.tokensWF) :
    ((authenticate_biometric ctx s req fresh now).2).tokensWF := by
  unfold authenticate_biometric
  cases hfu : s.users.find? (fun u =>
      u.id == req.user_id && u.biometric_enabled && u.is_active) with
  | none => exact hwf
  | some u =>
    cases hfd : s.devices.find? (fun d =>
        d.user_id == req.user_id && d.device_id == req.device_id &&
        d.supports_biometric && d.is_active) with
    | none => exact hwf
    | some d =>
      cases hv : verify_biometric_signature ctx u.biometric_public_key
          req.biometric_signature req.challenge with
      | false => simp only [hv, Bool.not_false, if_true]; exact hwf
      | true =>
        simp only [hv, Bool.not_true, Bool.false_eq_true, if_false]
        cases hct : create_tokens ctx s u req.device_id false fresh now with
        | none => exact hwf
        | some pr =>
          obtain ⟨resp, s1⟩ := pr
          have h1 : s1.tokensWF := create_tokens_tokensWF hct hwf
          unfold Store.tokensWF at h1 ⊢
          exact h1

/-- Every single committed operation preserves hash uniqueness. -/
theorem step_tokensWF {ctx : Ctx} {s s' : Store} (h : Step ctx s s')
    (hwf : s.tokensWF) : s'.tokensWF := by
  cases h with
  | auth email password now =>
    unfold Store.tokensWF at *
    rw [authenticate_user_snd_tokens]
    exact hwf
  | mint u device_id remember_me fresh now resp s2 hct =>
    exact create_tokens_tokensWF hct hwf
  | refresh req now =>
    unfold Store.tokensWF at *
    rw [refresh_access_token_snd_hashes]
    exact hwf
  | revokeSvc tok =>
    unfold Store.tokensWF at *
    rw [revoke_refresh_token_snd_hashes]
    exact hwf
  | revokeRepo hh =>
    unfold Store.tokensWF at *
    rw [revoke_token_snd_hashes]
    exact hwf
  | revokeUser uid excl =>
    unfold Store.tokensWF at *
    rw [revoke_user_tokens_snd_hashes]
    exact hwf
  | cleanup now =>
    unfold Store.tokensWF at *
    refine List.Nodup.sublist ?_ hwf
    exact List.Sublist.map _ (List.filter_sublist s.tokens)
  | challenge uid did fresh =>
    rw [generate_challenge_snd]
    exact hwf
  | biometric req fresh now =>
    exact authenticate_biometric_tokensWF hwf
  | social info provider =>
    unfold Store.tokensWF at *
    rw [find_or_create_social_user_snd_tokens]
    exact hwf

theorem countP_add_length_filter_not {α : Type _} (p : α → Bool) (l : List α) :
    l.countP p + (l.filter fun x => !p x).length = l.length := by
  induction l with
  | nil => rfl
  | cons a as ih =>
    by_cases h : p a = true <;>
      simp [List.countP_cons, List.filter_cons, h] <;> omega

theorem linkSocial_email (prov : Provider) (info : SocialUserInfo) (u : User) :
    (linkSocial prov info u).email = u.email := by
  unfold linkSocial setProviderId
  cases prov <;> dsimp only [] <;> split <;> rfl

theorem linkSocial_id (prov : Provider) (info : SocialUserInfo) (u : User) :
    (linkSocial prov info u).id = u.id := by
  unfold linkSocial setProviderId
  cases prov <;> dsimp only [] <;> split <;> rfl

theorem linkSocial_is_verified (prov : Provider) (info : SocialUserInfo)
    (u : User) :
    (linkSocial prov info u).is_verified = (u.is_verified || info.verified_email) := by
  unfold linkSocial setProviderId
  cases prov <;> cases hv : u.is_verified <;> cases hw : info.verified_email <;>
    simp [hv, hw]

theorem providerId_linkSocial (prov : Provider) (info : SocialUserInfo)
    (u : User) :
    providerId (linkSocial prov info u) prov = some info.pid := by
  unfold linkSocial setProviderId providerId
  cases prov <;> dsimp only [] <;> split <;> rfl

theorem countP_updateFirst {α : Type _} {p q : α → Bool} {f : α → α}
    (hg : ∀ x, p (f x) = p x) (l : List α) :
    (updateFirst q f l).countP p = l.countP p := by
  induction l with
  | nil => rfl
  | cons a as ih =>
    by_cases hq : q a = true <;>
      simp [updateFirst, hq, List.countP_cons, hg, ih]

/-- When the projections `f` of a list's elements are pairwise distinct and
`x` in the list projects to `b`, exactly one element projects to `b`. -/
theorem countP_beq_eq_one {α β : Type _} [BEq β] [LawfulBEq β]
    {l : List α} {f : α → β} {b : β} (hnd : (l.map f).Nodup) {x : α}
    (hx : x ∈ l) (hfx : f x = b) :
    l.countP (fun v => f v == b) = 1 := by
  induction l with
  | nil => cases hx
  | cons a as ih =>
    rw [List.map_cons, List.nodup_cons] at hnd
    obtain ⟨hna, hnd2⟩ := hnd
    rcases List.mem_cons.mp hx with heq | hx2
    · rw [heq] at hfx
      have hzero : as.countP (fun v => f v == b) = 0 := by
        rw [List.countP_eq_zero]
        intro y hy hpy
        have hyb : f y = b := by simpa using hpy
        apply hna
        rw [hfx]
        exact List.mem_map.mpr ⟨y, hy, hyb⟩
      rw [List.countP_cons, hzero]
      simp [hfx]
    · have hfa : ¬(f a == b) = true := by
        intro hcontra
        have hab : f a = b := by simpa using hcontra
        exact hna (by rw [hab, ← hfx]; exact List.mem_map.mpr ⟨x, hx2, rfl⟩)
      rw [List.countP_cons, if_neg hfa, Nat.add_zero]
      exact ih hnd2 hx2

theorem reachable_tokensWF (ctx : Ctx) :
    ∀ s : Store, Reachable ctx s → s.tokensWF := by
  intro s h
  induction h with
  | refl => simp [Store.tokensWF, Store.empty]
  | tail hr hstep ih => exact step_tokensWF hstep ih

/-! ### Claim theorems -/

/-- C2, counterexample: `authenticate_user` never consults `is_active`, so a
deactivated user submitting the correct password is authenticated (the call
returns the user, not the generic failure `None` the claim requires). -/
theorem authenticate_user_inactive_cex :
    (authenticate_user demoCtx c2Store "b@example.com" "pw" 5).1 =
      some { inactiveUser with last_login := some 5 } ∧
    inactiveUser.is_active = false ∧ inactiveUser ∈ c2Store.users := by
  decide

/-- C2, amended: password authentication returns a generic failure exactly
when the user record with that email is absent, its stored hash is null, or
the password does not verify against the stored hash; the `is_active` flag
is not consulted, so an inactive user with a correct password is
authenticated. -/
theorem authenticate_user_no_active_check (ctx : Ctx) (s : Store)
    (email password : String) (now : Nat) (hwf : s.emailsWF) :
    (authenticate_user ctx s email password now).1.isSome = true ↔
      ∃ u ∈ s.users, u.email = email ∧
        ∃ hsh, u.password_hash = some hsh ∧ ctx.pwVerify password hsh = true := by
  unfold authenticate_user
  cases hf : s.users.find? (fun u => u.email == email) with
  | none =>
    have hnone := List.find?_eq_none.mp hf
    simp only [Option.isSome_none, Bool.false_eq_true, false_iff]
    rintro ⟨u, hu, he, hsh, hhash, hv⟩
    exact hnone u hu (by simp [he])
  | some u =>
    have hpu := List.find?_some hf
    have hmu : u ∈ s.users := List.mem_of_find?_eq_some hf
    have hue : u.email = email := by simpa using hpu
    have hwfm : (s.users.map fun v => v.email).Nodup := hwf
    have hinj := List.inj_on_of_nodup_map hwfm
    cases hph : u.password_hash with
    | none =>
      simp only [verify_password, hph, Option.isSome_none, Bool.false_eq_true, false_iff]
      rintro ⟨u', hu', he', hsh, hhash, hv⟩
      have heq : u' = u := hinj hu' hmu (by show u'.email = u.email; rw [he', hue])
      subst heq
      rw [hph] at hhash
      exact Option.noConfusion hhash
    | some hsh0 =>
      cases hv0 : ctx.pwVerify password hsh0 with
      | false =>
        simp only [verify_password, hph, hv0, Option.isSome_none, Bool.false_eq_true, false_iff]
        rintro ⟨u', hu', he', hsh, hhash, hv⟩
        have heq : u' = u := hinj hu' hmu (by show u'.email = u.email; rw [he', hue])
        subst heq
        rw [hph] at hhash
        obtain rfl : hsh0 = hsh := Option.some.inj hhash
        rw [hv0] at hv
        exact Bool.noConfusion hv
      | true =>
        simp only [verify_password, hph, hv0, Option.isSome_some, true_iff]
        exact ⟨u, hmu, hue, hsh0, hph, hv0⟩

/-- C2 witness: the amended characterisation evaluated on a concrete store
holding one inactive user with the matching password. -/
theorem authenticate_user_no_active_check_witness :
    c2Store.emailsWF ∧
    (authenticate_user demoCtx c2Store "b@example.com" "pw" 5).1.isSome = true :=
  ⟨by decide,
   (authenticate_user_no_active_check demoCtx c2Store "b@example.com" "pw" 5
      (by decide)).mpr
     ⟨inactiveUser, by decide, by decide, "bcrypt|pw", by decide, by decide⟩⟩

/-- C10: for a user whose stored password hash is null (social/biometric
only account), password authentication returns the generic failure and the
store is unchanged; the underlying `verify_password` call raises (passlib
rejects a `None` hash) but the service's `try`/`except` turns this into
`None` rather than propagating an exception to the caller. -/
theorem authenticate_user_null_hash (ctx : Ctx) (s : Store)
    (email password : String) (now : Nat) (u : User) (hu : u ∈ s.users)
    (he : u.email = email) (hwf : s.emailsWF) (hnull : u.password_hash = none) :
    authenticate_user ctx s email password now = (none, s) ∧
    verify_password ctx password u.password_hash = Except.error () := by
  have hfind : s.users.find? (fun v => v.email == email) = some u := by
    apply find?_eq_some_of_unique hu (by simp [he])
    intro y hy hpy
    have hwfm : (s.users.map fun v => v.email).Nodup := hwf
    refine List.inj_on_of_nodup_map hwfm hy hu ?_
    have hye : y.email = email := by simpa using hpy
    show y.email = u.email
    rw [hye, he]
  constructor
  · unfold authenticate_user
    rw [hfind]
    simp [verify_password, hnull]
  · simp [verify_password, hnull]

/-- C10 witness: a concrete password-less account; any submitted password
yields the generic failure with the store untouched. -/
theorem authenticate_user_null_hash_witness :
    authenticate_user demoCtx c10Store "c@example.com" "anything" 7 = (none, c10Store) :=
  (authenticate_user_null_hash demoCtx c10Store "c@example.com" "anything" 7
     socialOnlyUser (by decide) (by decide) (by decide) (by decide)).1

/-- C6, counterexample: revoking the same token twice — the second call
also returns `True` (the service reports whether a row with the hash
exists, not whether this call changed it), where the claim requires the
second call to return false.  The store is indeed unchanged by the second
call. -/
theorem revoke_refresh_token_twice_cex :
    (revoke_refresh_token demoCtx c6Store "tok").1 = true ∧
    (revoke_refresh_token demoCtx (revoke_refresh_token demoCtx c6Store "tok").2 "tok").1 = true ∧
    (revoke_refresh_token demoCtx (revoke_refresh_token demoCtx c6Store "tok").2 "tok").2 =
      (revoke_refresh_token demoCtx c6Store "tok").2 := by
  decide

/-- C6, amended: when a row with the token's hash exists, the first revoke
call deactivates exactly that row and returns true, and a second revoke call
on the same token leaves the store state unchanged and again returns true
(it reports existence of the row, not a state change). -/
theorem revoke_refresh_token_idempotent (ctx : Ctx) (s : Store) (tok : String)
    (t : RefreshToken) (ht : t ∈ s.tokens)
    (hh : t.token_hash = ctx.sha256hex tok) :
    (revoke_refresh_token ctx s tok).1 = true ∧
    (∃ i : Nat, ∃ t0 : RefreshToken,
       s.tokens[i]? = some t0 ∧ t0.token_hash = ctx.sha256hex tok ∧
       ((revoke_refresh_token ctx s tok).2).tokens[i]? =
         some { t0 with is_active := false } ∧
       ∀ j : Nat, j ≠ i → ((revoke_refresh_token ctx s tok).2).tokens[j]? = s.tokens[j]?) ∧
    (revoke_refresh_token ctx (revoke_refresh_token ctx s tok).2 tok).1 = true ∧
    (revoke_refresh_token ctx (revoke_refresh_token ctx s tok).2 tok).2 =
      (revoke_refresh_token ctx s tok).2 := by
  obtain ⟨t0, hft⟩ : ∃ t0, s.tokens.find?
      (fun r => r.token_hash == ctx.sha256hex tok) = some t0 := by
    cases hf : s.tokens.find? (fun r => r.token_hash == ctx.sha256hex tok) with
    | none => exact absurd (by simp [hh]) (List.find?_eq_none.mp hf t ht)
    | some x => exact ⟨x, rfl⟩
  have hq0 : t0.token_hash = ctx.sha256hex tok := by
    simpa using List.find?_some hft
  have h1 : revoke_refresh_token ctx s tok =
      (true, { s with tokens := updateFirst (fun r => r.token_hash == ctx.sha256hex tok) (fun r => { r with is_active := false }) s.tokens }) := by
    unfold revoke_refresh_token
    dsimp only []
    rw [hft]
  have hp : ∀ x : RefreshToken,
      (fun r => r.token_hash == ctx.sha256hex tok)
        ((fun r => ({ r with is_active := false } : RefreshToken)) x) =
      (fun r => r.token_hash == ctx.sha256hex tok) x := fun x => rfl
  have hft2 : (updateFirst (fun r => r.token_hash == ctx.sha256hex tok)
      (fun r => { r with is_active := false }) s.tokens).find?
        (fun r => r.token_hash == ctx.sha256hex tok) =
      some { t0 with is_active := false } := by
    rw [find?_updateFirst hp s.tokens, hft]
    rfl
  have hfix : updateFirst (fun r => r.token_hash == ctx.sha256hex tok)
      (fun r => { r with is_active := false })
      (updateFirst (fun r => r.token_hash == ctx.sha256hex tok)
        (fun r => { r with is_active := false }) s.tokens) =
      updateFirst (fun r => r.token_hash == ctx.sha256hex tok)
        (fun r => { r with is_active := false }) s.tokens :=
    updateFirst_eq_self_of_fix hft2 rfl
  have h2 : revoke_refresh_token ctx
      (revoke_refresh_token ctx s tok).2 tok =
      (true, (revoke_refresh_token ctx s tok).2) := by
    rw [h1]
    unfold revoke_refresh_token
    dsimp only []
    rw [hft2, hfix]
  refine ⟨by rw [h1], ?_, by rw [h2], by rw [h2]⟩
  obtain ⟨i, hi1, hi2, hi3⟩ := updateFirst_spec
    (f := fun r => ({ r with is_active := false } : RefreshToken)) hft
  refine ⟨i, t0, hi1, hq0, ?_, ?_⟩
  · rw [h1]
    exact hi2
  · intro j hj
    rw [h1]
    exact hi3 j hj

/-- C6 witness: the amended behaviour evaluated on a concrete store with one
active row. -/
theorem revoke_refresh_token_idempotent_witness :
    c6Token ∈ c6Store.tokens ∧
    (revoke_refresh_token demoCtx c6Store "tok").1 = true ∧
    (revoke_refresh_token demoCtx (revoke_refresh_token demoCtx c6Store "tok").2 "tok").2 =
      (revoke_refresh_token demoCtx c6Store "tok").2 := by
  have h := revoke_refresh_token_idempotent demoCtx c6Store "tok" c6Token
    (by decide) (by decide)
  exact ⟨by decide, h.1, h.2.2.2⟩

/-- C7, counterexample: a row of user 1 on device `"e"` is already
inactive; `revoke_user_tokens 1 (exclude "d")` matches it, returns rowcount
1, yet deactivates nothing (the store is unchanged) — so the returned count
is not the number of rows the call deactivated. -/
theorem revoke_user_tokens_count_cex :
    (revoke_user_tokens c7Store 1 (some "d")).1 = 1 ∧
    (revoke_user_tokens c7Store 1 (some "d")).2 = c7Store := by
  decide

/-- C7, amended: for a non-empty excluded device `d`, the bulk revoke
deactivates exactly the rows of user `uid` whose device differs from `d`,
leaves rows on device `d` and rows of other users untouched, and returns
the number of rows matched by the update — including rows that were
already inactive.  (With a `None` or empty `exclude_device`, Python
truthiness drops the device filter and every row of the user is matched.) -/
theorem revoke_user_tokens_spec (s : Store) (uid : Nat) (d : String)
    (hd : d ≠ "") :
    (revoke_user_tokens s uid (some d)).1 =
      s.tokens.countP (fun t => decide (t.user_id = uid ∧ t.device_id ≠ d)) ∧
    ((revoke_user_tokens s uid (some d)).2).tokens.length = s.tokens.length ∧
    (∀ i : Nat, ∀ t : RefreshToken, s.tokens[i]? = some t →
       ((revoke_user_tokens s uid (some d)).2).tokens[i]? =
         some (if t.user_id = uid ∧ t.device_id ≠ d then { t with is_active := false } else t)) ∧
    (∀ t ∈ ((revoke_user_tokens s uid (some d)).2).tokens,
       t.user_id = uid → t.device_id ≠ d → t.is_active = false) ∧
    ((revoke_user_tokens s uid (some d)).2).users = s.users ∧
    ((revoke_user_tokens s uid (some d)).2).devices = s.devices := by
  have hdb : (d == "") = false := by simpa using hd
  have hmatch : ∀ t : RefreshToken, revokeUserMatch uid (some d) t =
      decide (t.user_id = uid ∧ t.device_id ≠ d) := by
    intro t
    by_cases h1 : t.user_id = uid <;> by_cases h2 : t.device_id = d <;>
      simp [revokeUserMatch, hdb, h1, h2]
  refine ⟨?_, ?_, ?_, ?_, rfl, rfl⟩
  · exact List.countP_congr fun x hx => by rw [hmatch x]
  · exact length_updateWhere _ _ s.tokens
  · intro i t hit
    have hup := getElem?_updateWhere (revokeUserMatch uid (some d))
      (fun t => { t with is_active := false }) s.tokens i
    have htok : ((revoke_user_tokens s uid (some d)).2).tokens =
        updateWhere (revokeUserMatch uid (some d))
          (fun t => { t with is_active := false }) s.tokens := rfl
    rw [htok, hup, hit]
    simp only [Option.map_some', Option.some.injEq]
    rw [hmatch t]
    by_cases hc : t.user_id = uid ∧ t.device_id ≠ d <;> simp [hc]
  · intro t htm h1 h2
    obtain ⟨x, hx, hxe⟩ := List.mem_map.mp htm
    by_cases hpx : revokeUserMatch uid (some d) x = true
    · rw [if_pos hpx] at hxe
      rw [← hxe]
    · rw [if_neg hpx] at hxe
      subst hxe
      rw [hmatch x] at hpx
      exact absurd (by simp [h1, h2]) hpx

/-- C7 witness: the amended statement evaluated on the concrete
already-inactive row of the counterexample store. -/
theorem revoke_user_tokens_spec_witness :
    (revoke_user_tokens c7Store 1 (some "d")).1 =
      c7Store.tokens.countP (fun t => decide (t.user_id = 1 ∧ t.device_id ≠ "d")) ∧
    ((revoke_user_tokens c7Store 1 (some "d")).2).users = c7Store.users := by
  have h := revoke_user_tokens_spec c7Store 1 "d" (by decide)
  exact ⟨h.1, h.2.2.2.2.1⟩

/-- C9: `cleanup_expired_tokens` removes exactly the rows whose expiry lies
strictly in the past, returns their count, touches nothing else, and every
removed row is already unusable: a refresh-style lookup
(`get_by_token_hash`) of its hash at the same instant returns nothing. -/
theorem cleanup_expired_tokens_safe (s : Store) (now : Nat)
    (hwf : s.tokensWF) :
    (cleanup_expired_tokens s now).1 +
        ((cleanup_expired_tokens s now).2).tokens.length = s.tokens.length ∧
    (∀ t : RefreshToken, t ∈ ((cleanup_expired_tokens s now).2).tokens ↔
        t ∈ s.tokens ∧ ¬t.expires_at < now) ∧
    ((cleanup_expired_tokens s now).2).users = s.users ∧
    ((cleanup_expired_tokens s now).2).devices = s.devices ∧
    ((cleanup_expired_tokens s now).2).prefs = s.prefs ∧
    (∀ t ∈ s.tokens, t.expires_at < now →
        get_by_token_hash s t.token_hash now = none) := by
  refine ⟨?_, ?_, rfl, rfl, rfl, ?_⟩
  · exact countP_add_length_filter_not (fun t => decide (t.expires_at < now)) s.tokens
  · intro t
    show t ∈ s.tokens.filter (fun r => !decide (r.expires_at < now)) ↔ _
    simp [List.mem_filter]
  · intro t ht hexp
    unfold get_by_token_hash
    rw [List.find?_eq_none]
    intro x hx hpx
    simp only [Bool.and_eq_true, beq_iff_eq, decide_eq_true_eq] at hpx
    obtain ⟨⟨hhash, hact⟩, hlt⟩ := hpx
    have hwfm : (s.tokens.map fun r => r.token_hash).Nodup := hwf
    have hxt : x = t :=
      List.inj_on_of_nodup_map hwfm hx ht (by show x.token_hash = t.token_hash; exact hhash)
    subst hxt
    omega

/-- C9 witness: on a store holding one expired active row, the sweep's
safety conclusion evaluated concretely — the lookup of that row's hash at
the same instant rejects it. -/
theorem cleanup_expired_tokens_safe_witness :
    get_by_token_hash c9Store c9Token.token_hash 100 = none :=
  (cleanup_expired_tokens_safe c9Store 100 (by decide)).2.2.2.2.2
    c9Token (by decide) (by decide)

/-- C3: the biometric signature check is a symmetric equality test — a
submitted signature is accepted exactly when its decoded bytes equal the
SHA-256 digest of the challenge concatenated with the hex of the decoded
stored public key, a value computable from the challenge and the public key
alone; in particular the concrete forged signature built from only those two
public inputs is accepted under the executable primitives, contradicting
the claim that no such signature can be accepted. -/
theorem biometric_signature_symmetric :
    (∀ ctx : Ctx, ∀ pk sig ch : String,
       verify_biometric_signature ctx (some pk) sig ch = true ↔
         ∃ kb sb : String, ctx.b64decode pk = some kb ∧
           ctx.b64decode sig = some sb ∧
           sb = ctx.sha256dig (ch ++ ctx.hexBytes kb)) ∧
    verify_biometric_signature demoCtx (some "PK")
      (demoCtx.sha256dig ("CH" ++ demoCtx.hexBytes "PK")) "CH" = true := by
  constructor
  · intro ctx pk sig ch
    unfold verify_biometric_signature
    cases hs : ctx.b64decode sig with
    | none =>
      cases hk : ctx.b64decode pk <;> simp [hs, hk]
    | some sb =>
      cases hk : ctx.b64decode pk with
      | none => simp [hs, hk]
      | some kb => simp [hs, hk]
  · decide

/-- C3 witness: the symmetric characterisation applied at the concrete
forged input. -/
theorem biometric_signature_symmetric_witness :
    verify_biometric_signature demoCtx (some "PK") "dig|CHPK" "CH" = true :=
  (biometric_signature_symmetric.1 demoCtx "PK" "dig|CHPK" "CH").mpr
    ⟨"PK", "dig|CHPK", by decide, by decide, by decide⟩

/-- C4: `generate_challenge` returns the store unchanged — no challenge is
ever persisted — and `authenticate_biometric` never consults any record of
issued challenges: on a concrete store the same never-issued challenge
string is accepted twice in a row, contradicting single-use consumption
and staleness checking. -/
theorem biometric_challenge_unpersisted :
    (∀ s : Store, ∀ uid : Nat, ∀ did fresh : String,
       (generate_challenge s uid did fresh).2 = s) ∧
    (authenticate_biometric demoCtx c4Store c4Req "f1" 10).1.isSome = true ∧
    (authenticate_biometric demoCtx
        (authenticate_biometric demoCtx c4Store c4Req "f1" 10).2
        c4Req "f2" 20).1.isSome = true := by
  refine ⟨?_, by decide, by decide⟩
  intro s uid did fresh
  exact generate_challenge_snd s uid did fresh

/-- C4 witness: the no-persistence conclusion applied at a concrete store
and device. -/
theorem biometric_challenge_unpersisted_witness :
    (generate_challenge c4Store 1 "d1" "nonce").2 = c4Store :=
  biometric_challenge_unpersisted.1 c4Store 1 "d1" "nonce"

/-- C5: in every reachable store state the stored token hashes are pairwise
distinct; an insert whose fresh plaintext hashes to an existing row's hash
fails (unique constraint); a successful issuance returns the plaintext to
the caller, appends a row whose `token_hash` is the SHA-256 of that
plaintext, preserves distinctness, and — last conjunct — the stored row is
independent of the plaintext except through its `token_hash` field, so the
plaintext itself is never persisted. -/
theorem refresh_token_hash_integrity (ctx : Ctx) :
    (∀ s : Store, Reachable ctx s → s.tokensWF) ∧
    (∀ s : Store, ∀ u : User, ∀ d : String, ∀ rm : Bool, ∀ fresh : String,
       ∀ now : Nat,
       (∃ t ∈ s.tokens, t.token_hash = ctx.sha256hex fresh) →
         create_tokens ctx s u d rm fresh now = none) ∧
    (∀ s : Store, ∀ u : User, ∀ d : String, ∀ rm : Bool, ∀ fresh : String,
       ∀ now : Nat, ∀ resp : TokenResponse, ∀ s2 : Store,
       create_tokens ctx s u d rm fresh now = some (resp, s2) →
         resp.refresh_token = fresh ∧
         s2.tokens = s.tokens ++ [mkRefreshRow ctx u d rm fresh now] ∧
         (mkRefreshRow ctx u d rm fresh now).token_hash = ctx.sha256hex fresh ∧
         s2.users = s.users ∧ s2.devices = s.devices ∧
         (s.tokensWF → s2.tokensWF)) ∧
    (∀ u : User, ∀ d : String, ∀ rm : Bool, ∀ now : Nat, ∀ p1 p2 x : String,
       ({ mkRefreshRow ctx u d rm p1 now with token_hash := x } : RefreshToken) =
         { mkRefreshRow ctx u d rm p2 now with token_hash := x }) := by
  refine ⟨reachable_tokensWF ctx, ?_, ?_, ?_⟩
  · intro s u d rm fresh now hdup
    exact create_tokens_eq_none ctx s u d rm fresh now hdup
  · intro s u d rm fresh now resp s2 h
    obtain ⟨h1, h2, h3, h4, h5, h6⟩ := create_tokens_eq_some h
    subst h6
    exact ⟨h1, rfl, rfl, rfl, rfl, fun hwf => create_tokens_tokensWF h hwf⟩
  · intro u d rm now p1 p2 x
    rfl

/-- C5 witness: the empty store is well-formed, and issuing a token whose
plaintext collides (after hashing) with the concrete stored row fails. -/
theorem refresh_token_hash_integrity_witness :
    Store.tokensWF Store.empty ∧
    create_tokens demoCtx c5Store demoUser "d1" false "tok" 0 = none := by
  have h := refresh_token_hash_integrity demoCtx
  exact ⟨h.1 Store.empty Relation.ReflTransGen.refl,
         h.2.1 c5Store demoUser "d1" false "tok" 0 ⟨c5Token, by decide, by decide⟩⟩

/-- C1: `refresh` succeeds if and only if the store holds a row whose hash
is the SHA-256 of the supplied plaintext, on the supplied device, active and
strictly unexpired, whose owning user exists and is active.  On failure the
store is unchanged.  On success the response carries a freshly minted access
token for the owning user paired with exactly the refresh-token string the
caller supplied, and the only stored mutation is the matched row's
`last_used` timestamp. -/
theorem refresh_access_token_correct (ctx : Ctx) (s : Store)
    (req : RefreshTokenRequest) (now : Nat)
    (hwfT : s.tokensWF) (hwfU : s.usersWF) :
    ((refresh_access_token ctx s req now).1.isSome = true ↔
       ∃ t ∈ s.tokens, t.token_hash = ctx.sha256hex req.refresh_token ∧
         t.device_id = req.device_id ∧ t.is_active = true ∧ now < t.expires_at ∧
         ∃ u ∈ s.users, u.id = t.user_id ∧ u.is_active = true) ∧
    ((refresh_access_token ctx s req now).1 = none →
       (refresh_access_token ctx s req now).2 = s) ∧
    (∀ resp : TokenResponse, (refresh_access_token ctx s req now).1 = some resp →
       resp.refresh_token = req.refresh_token ∧
       (∃ u ∈ s.users, u.is_active = true ∧
          resp.access_token = ctx.jwtEncode (mintAccessData u now) ∧
          resp.user_id = u.id ∧ resp.role = u.role) ∧
       ((refresh_access_token ctx s req now).2).users = s.users ∧
       ((refresh_access_token ctx s req now).2).devices = s.devices ∧
       ((refresh_access_token ctx s req now).2).prefs = s.prefs ∧
       ∃ i : Nat, ∃ t : RefreshToken, s.tokens[i]? = some t ∧
         t.token_hash = ctx.sha256hex req.refresh_token ∧
         t.device_id = req.device_id ∧ t.is_active = true ∧ now < t.expires_at ∧
         ((refresh_access_token ctx s req now).2).tokens[i]? =
           some { t with last_used := some now } ∧
         ∀ j : Nat, j ≠ i →
           ((refresh_access_token ctx s req now).2).tokens[j]? = s.tokens[j]?) := by
  have hwfTm : (s.tokens.map fun r => r.token_hash).Nodup := hwfT
  have hwfUm : (s.users.map fun v => v.id).Nodup := hwfU
  have hrm : ∀ t : RefreshToken,
      refreshMatch (ctx.sha256hex req.refresh_token) req.device_id now t = true ↔
      (t.token_hash = ctx.sha256hex req.refresh_token ∧ t.device_id = req.device_id ∧
        t.is_active = true ∧ now < t.expires_at) := by
    intro t
    simp [refreshMatch, and_assoc]
  cases hft : s.tokens.find?
      (refreshMatch (ctx.sha256hex req.refresh_token) req.device_id now) with
  | none =>
    have hval : refresh_access_token ctx s req now = (none, s) := by
      unfold refresh_access_token
      dsimp only []
      rw [hft]
    rw [hval]
    refine ⟨?_, fun _ => rfl, fun resp hr => absurd hr (by simp)⟩
    simp only [Option.isSome_none, Bool.false_eq_true, false_iff]
    rintro ⟨t, ht, h1, h2, h3, h4, hu⟩
    exact (List.find?_eq_none.mp hft t ht) ((hrm t).mpr ⟨h1, h2, h3, h4⟩)
  | some t =>
    have hpt := List.find?_some hft
    have hmt := List.mem_of_find?_eq_some hft
    obtain ⟨hth, htd, hta, hte⟩ := (hrm t).mp hpt
    cases hfu : s.users.find? (fun u => u.id == t.user_id) with
    | none =>
      have hval : refresh_access_token ctx s req now = (none, s) := by
        unfold refresh_access_token
        dsimp only []
        rw [hft]
        dsimp only []
        rw [hfu]
      rw [hval]
      refine ⟨?_, fun _ => rfl, fun resp hr => absurd hr (by simp)⟩
      simp only [Option.isSome_none, Bool.false_eq_true, false_iff]
      rintro ⟨t', ht', h1, h2, h3, h4, u', hu', hui, hua⟩
      have htt : t' = t := List.inj_on_of_nodup_map hwfTm ht' hmt
        (by show t'.token_hash = t.token_hash; rw [h1, hth])
      subst htt
      exact (List.find?_eq_none.mp hfu u' hu') (by simp [hui])
    | some u =>
      have hpu := List.find?_some hfu
      have hmu := List.mem_of_find?_eq_some hfu
      have hui : u.id = t.user_id := by simpa using hpu
      cases hua : u.is_active with
      | false =>
        have hval : refresh_access_token ctx s req now = (none, s) := by
          unfold refresh_access_token
          dsimp only []
          rw [hft]
          dsimp only []
          rw [hfu]
          dsimp only []
          rw [hua]
          rfl
        rw [hval]
        refine ⟨?_, fun _ => rfl, fun resp hr => absurd hr (by simp)⟩
        simp only [Option.isSome_none, Bool.false_eq_true, false_iff]
        rintro ⟨t', ht', h1, h2, h3, h4, u', hu', hui2, hua2⟩
        have htt : t' = t := List.inj_on_of_nodup_map hwfTm ht' hmt
          (by show t'.token_hash = t.token_hash; rw [h1, hth])
        subst htt
        have huu : u' = u := List.inj_on_of_nodup_map hwfUm hu' hmu
          (by show u'.id = u.id; rw [hui2, hui])
        subst huu
        rw [hua] at hua2
        exact Bool.noConfusion hua2
      | true =>
        have hval : refresh_access_token ctx s req now =
            (some { access_token := ctx.jwtEncode (mintAccessData u now),
                    refresh_token := req.refresh_token, token_type := "bearer",
                    expires_in := accessTokenExpireMinutes * secondsPerMinute,
                    user_id := u.id, role := u.role },
             { s with tokens := updateFirst (refreshMatch (ctx.sha256hex req.refresh_token) req.device_id now) (fun r => { r with last_used := some now }) s.tokens }) := by
          unfold refresh_access_token
          dsimp only []
          rw [hft]
          dsimp only []
          rw [hfu]
          dsimp only []
          rw [hua]
          rfl
        refine ⟨?_, ?_, ?_⟩
        · rw [hval]
          simp only [Option.isSome_some, true_iff]
          exact ⟨t, hmt, hth, htd, hta, hte, u, hmu, hui, hua⟩
        · intro hnone
          rw [hval] at hnone
          exact absurd hnone (by simp)
        · intro resp hr
          rw [hval] at hr
          obtain rfl := Option.some.inj hr
          obtain ⟨i, hi1, hi2, hi3⟩ := updateFirst_spec
            (f := fun r => ({ r with last_used := some now } : RefreshToken)) hft
          refine ⟨rfl, ⟨u, hmu, hua, rfl, rfl, rfl⟩, by rw [hval], by rw [hval],
            by rw [hval], i, t, hi1, hth, htd, hta, hte, ?_, ?_⟩
          · rw [hval]
            exact hi2
          · intro j hj
            rw [hval]
            exact hi3 j hj

/-- C8: social identity resolution order — (a) a stored user carrying the
asserted provider id is returned with the store unchanged; (b) otherwise a
stored user carrying the asserted email is linked in place: the provider id
is attached, the user becomes verified when the provider asserts a verified
email, no user row is added or removed and exactly one user record carries
that email afterwards (no duplicate user); (c) otherwise a new user with
the default role and no password is appended, the provider id linked, and a
default preferences row created. -/
theorem find_or_create_social_user_resolution (s : Store)
    (info : SocialUserInfo) (provider : Provider)
    (hemail : s.emailsWF) (hprov : s.providerWF provider) :
    (∀ u ∈ s.users, providerId u provider = some info.pid →
       find_or_create_social_user s info provider = (some u, s)) ∧
    ((∀ u ∈ s.users, providerId u provider ≠ some info.pid) →
      ∀ u ∈ s.users, u.email = info.email →
        (find_or_create_social_user s info provider).1 =
          some (linkSocial provider info u) ∧
        providerId (linkSocial provider info u) provider = some info.pid ∧
        (linkSocial provider info u).id = u.id ∧
        (linkSocial provider info u).email = u.email ∧
        (linkSocial provider info u).is_verified =
          (u.is_verified || info.verified_email) ∧
        ((find_or_create_social_user s info provider).2).users.length =
          s.users.length ∧
        linkSocial provider info u ∈
          ((find_or_create_social_user s info provider).2).users ∧
        ((find_or_create_social_user s info provider).2).users.countP
          (fun v => v.email == info.email) = 1 ∧
        ((find_or_create_social_user s info provider).2).tokens = s.tokens ∧
        ((find_or_create_social_user s info provider).2).prefs = s.prefs) ∧
    ((∀ u ∈ s.users, providerId u provider ≠ some info.pid) →
      (∀ u ∈ s.users, u.email ≠ info.email) →
        (find_or_create_social_user s info provider).1 =
          some (newSocialUser s info provider) ∧
        ((find_or_create_social_user s info provider).2).users =
          s.users ++ [newSocialUser s info provider] ∧
        (newSocialUser s info provider).role = UserRole.attendee ∧
        (newSocialUser s info provider).password_hash = none ∧
        providerId (newSocialUser s info provider) provider = some info.pid ∧
        (newSocialUser s info provider).email = info.email ∧
        (newSocialUser s info provider).is_verified = info.verified_email ∧
        (newSocialUser s info provider).id ∈
          ((find_or_create_social_user s info provider).2).prefs) := by
  refine ⟨?_, ?_, ?_⟩
  · intro u hu hpu
    have hfind : s.users.find?
        (fun v => providerId v provider == some info.pid) = some u := by
      apply find?_eq_some_of_unique hu (by simp [hpu])
      intro y hy hpy
      have hyp : providerId y provider = some info.pid := by simpa using hpy
      refine hprov y hy u hu ?_ ?_
      · rw [hyp, hpu]
      · rw [hyp]
        exact fun hcontra => Option.noConfusion hcontra
    unfold find_or_create_social_user
    rw [hfind]
  · intro hnp u hu hue
    have hfn : s.users.find?
        (fun v => providerId v provider == some info.pid) = none :=
      List.find?_eq_none.mpr fun x hx => by simpa using hnp x hx
    have hwfm : (s.users.map fun v => v.email).Nodup := hemail
    have hfe : s.users.find? (fun v => v.email == info.email) = some u := by
      apply find?_eq_some_of_unique hu (by simp [hue])
      intro y hy hpy
      refine List.inj_on_of_nodup_map hwfm hy hu ?_
      show y.email = u.email
      have hye : y.email = info.email := by simpa using hpy
      rw [hye, hue]
    have hval : find_or_create_social_user s info provider =
        (some (linkSocial provider info u), { s with users := updateFirst (fun v => v.email == info.email) (linkSocial provider info) s.users }) := by
      unfold find_or_create_social_user
      rw [hfn]
      dsimp only []
      rw [hfe]
    have hp : ∀ x : User,
        (fun v => v.email == info.email) (linkSocial provider info x) =
        (fun v => v.email == info.email) x := by
      intro x
      show ((linkSocial provider info x).email == info.email) =
        (x.email == info.email)
      rw [linkSocial_email]
    refine ⟨by rw [hval], providerId_linkSocial provider info u,
      linkSocial_id provider info u, linkSocial_email provider info u,
      linkSocial_is_verified provider info u, ?_, ?_, ?_,
      by rw [hval], by rw [hval]⟩
    · rw [hval]
      exact length_updateFirst _ _ s.users
    · rw [hval]
      have hfind2 : (updateFirst (fun v => v.email == info.email)
          (linkSocial provider info) s.users).find?
            (fun v => v.email == info.email) =
          some (linkSocial provider info u) := by
        rw [find?_updateFirst hp s.users, hfe]
        rfl
      exact List.mem_of_find?_eq_some hfind2
    · rw [hval]
      show (updateFirst (fun v => v.email == info.email)
          (linkSocial provider info) s.users).countP
            (fun v => v.email == info.email) = 1
      rw [countP_updateFirst hp s.users]
      exact countP_beq_eq_one hwfm hu hue
  · intro hnp hne
    have hfn : s.users.find?
        (fun v => providerId v provider == some info.pid) = none :=
      List.find?_eq_none.mpr fun x hx => by simpa using hnp x hx
    have hfe : s.users.find? (fun v => v.email == info.email) = none :=
      List.find?_eq_none.mpr fun x hx => by simpa using hne x hx
    have hval : find_or_create_social_user s info provider =
        (some (newSocialUser s info provider), create_default_preferences { s with users := s.users ++ [newSocialUser s info provider], nextUserId := s.nextUserId + 1 } (newSocialUser s info provider).id) := by
      unfold find_or_create_social_user
      rw [hfn]
      dsimp only []
      rw [hfe]
    refine ⟨by rw [hval], ?_, ?_, ?_, ?_, ?_, ?_, ?_⟩
    · rw [hval]
      unfold create_default_preferences
      split <;> rfl
    · unfold newSocialUser setProviderId
      cases provider <;> rfl
    · unfold newSocialUser setProviderId
      cases provider <;> rfl
    · unfold newSocialUser setProviderId providerId
      cases provider <;> rfl
    · unfold newSocialUser setProviderId
      cases provider <;> rfl
    · unfold newSocialUser setProviderId
      cases provider <;> rfl
    · rw [hval]
      unfold create_default_preferences
      split
      · rename_i hany
        obtain ⟨pid0, hp0, hpe⟩ := List.any_eq_true.mp hany
        have hpp : pid0 = (newSocialUser s info provider).id := by simpa using hpe
        exact hpp ▸ hp0
      · exact List.mem_append.mpr (Or.inr (List.mem_singleton.mpr rfl))

/-- C8 witness: linking a social assertion for an existing email onto the
concrete one-user store — the result is that single user with the provider
id attached, and exactly one record with that email remains. -/
theorem find_or_create_social_user_resolution_witness :
    c8Store.emailsWF ∧ c8Store.providerWF Provider.google ∧
    (find_or_create_social_user c8Store c8Info Provider.google).1 =
      some (linkSocial Provider.google c8Info c8User) ∧
    ((find_or_create_social_user c8Store c8Info Provider.google).2).users.countP
      (fun v => v.email == c8Info.email) = 1 := by
  have h := find_or_create_social_user_resolution c8Store c8Info Provider.google
    (by decide) (by decide)
  have hb := h.2.1 (by decide) c8User (by decide) (by decide)
  exact ⟨by decide, by decide, hb.1, hb.2.2.2.2.2.2.2.1⟩

/-- C1 witness: the characterisation evaluated on a concrete store with one
matching active unexpired row owned by an active user. -/
theorem refresh_access_token_correct_witness :
    c1Store.tokensWF ∧ c1Store.usersWF ∧
    (refresh_access_token demoCtx c1Store c1Req 50).1.isSome = true := by
  have h := refresh_access_token_correct demoCtx c1Store c1Req 50
    (by decide) (by decide)
  refine ⟨by decide, by decide, h.1.mpr ?_⟩
  exact ⟨c1Token, by decide, by decide, by decide, by decide, by decide,
    demoUser, by decide, by decide, by decide⟩

end AuthCore
